import Mathlib

/-!
Verification of the columnar in-memory array core used by the
arrow-cookbook repository (src/create_arrays.rs, src/low_level_api.rs).

The cookbook calls into the Arrow array library (typed arrays, builders,
buffers, validity bitmaps and the type-erased `ArrayData` descriptor).
That library's own code is not part of the repository sources, so the
definitions below model it from the specification; the cookbook functions
themselves (`create_array_with_constructor`, `create_int_array_from_buffer`,
...) are then embedded directly on top of the model, following the source
files line by line.

Conventions of the embedding:
* a `Buffer` is its logical byte content, a `List Nat` with every entry
  below 256 (length = `List.length`; allocation capacity plays no role in
  any claim and is not tracked);
* a `ValidityBitmap` is the logical bit sequence `List Bool` (bit `i` is
  entry `i`; the little-endian byte packing is invisible to the claims);
* machine integers are `Int`/`Nat` with explicit reduction modulo `2^w`
  in the byte encodings.
-/

namespace ArrowSpec

/-- Modelled from the spec: a Buffer is an owned block of raw bytes; we keep
its logical byte content (`len` of the spec is `List.length`). -/
abbrev Buffer := List Nat

/-- Modelled from the spec: a ValidityBitmap is a bit-packed presence mask;
we keep the logical bit sequence, bit `i` set means element `i` is present
(`bit_len` of the spec is `List.length`). -/
abbrev ValidityBitmap := List Bool

/-- Modelled from the spec: the closed set of element type tags used by the
cookbook (`DataType::UInt8`, `DataType::Int32`, `DataType::Utf8`). -/
inductive DataType where
  | uint8
  | int32
  | utf8
  deriving DecidableEq, Repr

/-- Modelled from the spec: the fixed element width in bytes
(`size_of(T)`); `utf8` is variable-width and has no fixed element size. -/
def DataType.byteWidth : DataType → Nat
  | .uint8 => 1
  | .int32 => 4
  | .utf8 => 0

/-- Little-endian 4-byte encoding of a natural number below `2 ^ 32`. -/
def toLE4 (n : Nat) : List Nat :=
  [n % 256, n / 256 % 256, n / 256 ^ 2 % 256, n / 256 ^ 3 % 256]

/-- Little-endian decoding of 4 bytes into a natural number. -/
def fromLE4 (bs : List Nat) : Nat :=
  match bs with
  | [a, b, c, d] => a + 256 * b + 256 ^ 2 * c + 256 ^ 3 * d
  | _ => 0

/-- Modelled from the spec: the byte image of one fixed-width element
(two's complement, little endian). -/
def encodeElem : DataType → Int → List Nat
  | .uint8, v => [(v % 256).toNat]
  | .int32, v => toLE4 (v % 2 ^ 32).toNat
  | .utf8, _ => []

/-- Modelled from the spec: reading one fixed-width element back from its
byte image (sign-extending for `int32`). -/
def decodeElem : DataType → List Nat → Int
  | .uint8, bs => (bs.headD 0 : Int)
  | .int32, bs =>
      let n := fromLE4 bs
      if n < 2 ^ 31 then (n : Int) else (n : Int) - 2 ^ 32
  | .utf8, _ => 0

/-- Modelled from the spec: FixedWidthArray is an immutable fixed-element-size
array: a values Buffer of `length * size_of(T)` bytes, an optional
ValidityBitmap, and a declared element type tag. -/
structure FixedWidthArray where
  dtype : DataType
  values : Buffer
  nulls : Option ValidityBitmap
  length : Nat
  deriving DecidableEq, Repr

/-- Modelled from the spec: FixedWidthBuilder is a mutable accumulator that
appends values/nulls and finalizes into a FixedWidthArray. -/
structure FixedWidthBuilder where
  dtype : DataType
  values : Buffer
  nulls : Option ValidityBitmap
  length : Nat
  deriving DecidableEq, Repr

namespace FixedWidthBuilder

/-- Modelled from the spec: `new()`: empty builder, no bitmap yet. -/
def new (dt : DataType) : FixedWidthBuilder :=
  ⟨dt, [], none, 0⟩

/-- Modelled from the spec: `with_capacity(n)` preallocates
`n * size_of(T)` bytes; capacity does not change logical content, so the
builder state is that of `new`. -/
def with_capacity (dt : DataType) (_n : Nat) : FixedWidthBuilder :=
  new dt

/-- Modelled from the spec: `append_value(v)` writes `v`'s bytes and marks
the slot valid if a bitmap is already in use, else stays bitmap-free. -/
def append_value (b : FixedWidthBuilder) (v : Int) : FixedWidthBuilder :=
  { b with
    values := b.values ++ encodeElem b.dtype v
    nulls := b.nulls.map (· ++ [true])
    length := b.length + 1 }

/-- Modelled from the spec: `append_null()` writes a placeholder value slot
(zero bytes here; the content is unspecified) and lazily materializes a
ValidityBitmap if one does not yet exist, backfilling all prior positions
as valid. -/
def append_null (b : FixedWidthBuilder) : FixedWidthBuilder :=
  { b with
    values := b.values ++ List.replicate b.dtype.byteWidth 0
    nulls := some ((b.nulls.getD (List.replicate b.length true)) ++ [false])
    length := b.length + 1 }

/-- Modelled from the spec: `append_slice(values)` bulk-appends all-valid
values. -/
def append_slice (b : FixedWidthBuilder) (vs : List Int) : FixedWidthBuilder :=
  vs.foldl append_value b

/-- Modelled from the spec: `append_option(v)` dispatches to `append_value`
or `append_null`. -/
def append_option (b : FixedWidthBuilder) (v : Option Int) : FixedWidthBuilder :=
  match v with
  | some x => b.append_value x
  | none => b.append_null

/-- Modelled from the spec: `finish()` freezes the current buffers into an
immutable FixedWidthArray. -/
def finish (b : FixedWidthBuilder) : FixedWidthArray :=
  ⟨b.dtype, b.values, b.nulls, b.length⟩

end FixedWidthBuilder

namespace FixedWidthArray

/-- Modelled from the spec: `Int32Array::from(vec)` / `UInt8Array::from(vec)`
on a plain vector: values buffer holds the concatenated element bytes, no
validity bitmap is allocated. -/
def from_vec (dt : DataType) (vs : List Int) : FixedWidthArray :=
  ⟨dt, vs.flatMap (encodeElem dt), none, vs.length⟩

/-- Modelled from the spec: `from(vec of options)`: built through the
builder's `append_option` for each entry. -/
def from_opt_vec (dt : DataType) (vs : List (Option Int)) : FixedWidthArray :=
  (vs.foldl FixedWidthBuilder.append_option (FixedWidthBuilder.new dt)).finish

/-- Modelled from the spec: `collect` on an iterator of plain values: each
value is appended through the builder in order. -/
def collect (dt : DataType) (vs : List Int) : FixedWidthArray :=
  (vs.foldl FixedWidthBuilder.append_value (FixedWidthBuilder.new dt)).finish

/-- Observation: is logical element `i` null? (`false` when no bitmap.) -/
def isNull (a : FixedWidthArray) (i : Nat) : Bool :=
  match a.nulls with
  | none => false
  | some bm => !(bm.getD i true)

/-- Observation: the decoded value of logical element `i`. -/
def valueAt (a : FixedWidthArray) (i : Nat) : Int :=
  decodeElem a.dtype ((a.values.drop (i * a.dtype.byteWidth)).take a.dtype.byteWidth)

/-- Observation: the logical contents as a list of options (null = `none`). -/
def toObsList (a : FixedWidthArray) : List (Option Int) :=
  (List.range a.length).map fun i => if a.isNull i then none else some (a.valueAt i)

/-- Observation: the validity sequence, defaulting to all-valid when no
bitmap exists. -/
def validityList (a : FixedWidthArray) : List Bool :=
  (List.range a.length).map fun i => !(a.isNull i)

end FixedWidthArray

/-- Modelled from the spec: VariableWidthArray (strings) is an immutable
array of UTF-8 byte sequences: one offsets Buffer of `length + 1`
non-decreasing integers, one data Buffer of concatenated byte content, and
an optional ValidityBitmap. Offsets are kept as their logical values. -/
structure VariableWidthArray where
  offsets : List Nat
  data : Buffer
  nulls : Option ValidityBitmap
  length : Nat
  deriving DecidableEq, Repr

/-- Modelled from the spec: VariableWidthBuilder accumulates offsets and
byte content incrementally; the offsets buffer is initialized with a
leading `0` at construction time. -/
structure VariableWidthBuilder where
  offsets : List Nat
  data : Buffer
  nulls : Option ValidityBitmap
  length : Nat
  deriving DecidableEq, Repr

/-- UTF-8 byte content of a string: every cookbook input is ASCII, where
the UTF-8 encoding is the code-point sequence itself. -/
def strBytes (s : String) : List Nat :=
  s.data.map Char.toNat

namespace VariableWidthBuilder

/-- Modelled from the spec: `new()`: offsets buffer holds the leading `0`,
data empty, no bitmap. -/
def new : VariableWidthBuilder :=
  ⟨[0], [], none, 0⟩

/-- Modelled from the spec: `with_capacity(item_count, total_byte_size)`
preallocates both buffers; capacity does not change logical content. -/
def with_capacity (_items _bytes : Nat) : VariableWidthBuilder :=
  new

/-- Modelled from the spec: `append_value(s)` appends `s`'s bytes to the
data buffer, then appends the new cumulative end `data.len()` to the
offsets buffer as the element's terminating offset. -/
def append_value (b : VariableWidthBuilder) (s : List Nat) : VariableWidthBuilder :=
  { b with
    data := b.data ++ s
    offsets := b.offsets ++ [b.data.length + s.length]
    nulls := b.nulls.map (· ++ [true])
    length := b.length + 1 }

/-- Modelled from the spec: `append_null()` appends no data bytes (the
terminating offset equals the current `data.len()`) and lazily
materializes the ValidityBitmap, backfilling prior positions as valid. -/
def append_null (b : VariableWidthBuilder) : VariableWidthBuilder :=
  { b with
    offsets := b.offsets ++ [b.data.length]
    nulls := some ((b.nulls.getD (List.replicate b.length true)) ++ [false])
    length := b.length + 1 }

/-- Modelled from the spec: `append_option` dispatches to `append_value` or
`append_null`. -/
def append_option (b : VariableWidthBuilder) (s : Option (List Nat)) : VariableWidthBuilder :=
  match s with
  | some bs => b.append_value bs
  | none => b.append_null

/-- Modelled from the spec: `finish()` freezes the buffers into an
immutable VariableWidthArray; the offsets buffer has `length + 1`
entries. -/
def finish (b : VariableWidthBuilder) : VariableWidthArray :=
  ⟨b.offsets, b.data, b.nulls, b.length⟩

end VariableWidthBuilder

namespace VariableWidthArray

/-- Modelled from the spec: `StringArray::from(vec)` is sugar over the
builder with all-valid appends. -/
def from_vec (vs : List (List Nat)) : VariableWidthArray :=
  (vs.foldl VariableWidthBuilder.append_value VariableWidthBuilder.new).finish

/-- Observation: is logical element `i` null? (`false` when no bitmap.) -/
def isNull (a : VariableWidthArray) (i : Nat) : Bool :=
  match a.nulls with
  | none => false
  | some bm => !(bm.getD i true)

/-- Observation: the byte span of element `i`:
`data[offsets[i]..offsets[i+1]]`. -/
def elemBytes (a : VariableWidthArray) (i : Nat) : List Nat :=
  (a.data.take (a.offsets.getD (i + 1) 0)).drop (a.offsets.getD i 0)

end VariableWidthArray

/-- Modelled from the spec: the LayoutError kinds returned by
`ArrayData::try_new`. -/
inductive LayoutError where
  | wrongBufferCount
  | bufferTooSmall
  | offsetOutOfRange
  | nonMonotonicOffsets
  deriving DecidableEq, Repr

/-- Modelled from the spec: ArrayData is the type-erased physical
descriptor: element type, logical length, null count/bitmap, a logical
offset into the buffers, the ordered buffers, and child ArrayData. -/
inductive ArrayData where
  | mk (dtype : DataType) (length : Nat) (null_count : Nat)
      (nulls : Option ValidityBitmap) (offset : Nat)
      (buffers : List Buffer) (children : List ArrayData)
  deriving Repr

namespace ArrayData

def dtype : ArrayData → DataType
  | .mk dt _ _ _ _ _ _ => dt

def len : ArrayData → Nat
  | .mk _ l _ _ _ _ _ => l

def null_count : ArrayData → Nat
  | .mk _ _ nc _ _ _ _ => nc

/-- Modelled from the spec: `null_bitmap()` accessor. -/
def null_bitmap : ArrayData → Option ValidityBitmap
  | .mk _ _ _ nb _ _ _ => nb

def offset : ArrayData → Nat
  | .mk _ _ _ _ o _ _ => o

def buffers : ArrayData → List Buffer
  | .mk _ _ _ _ _ bs _ => bs

def children : ArrayData → List ArrayData
  | .mk _ _ _ _ _ _ cs => cs

/-- Modelled from the spec: `null_buffer()`: the little-endian byte packing
of the validity bitmap, when one exists. -/
def null_buffer (d : ArrayData) : Option Buffer :=
  d.null_bitmap.map fun bm =>
    (List.range ((bm.length + 7) / 8)).map fun byte =>
      (List.range 8).foldl
        (fun acc bit => if bm.getD (byte * 8 + bit) false then acc + 2 ^ bit else acc) 0

/-- Modelled from the spec: the number of unset bits of a bitmap, used to
derive `null_count`. -/
def countUnset (nb : Option ValidityBitmap) : Nat :=
  match nb with
  | none => 0
  | some bm => bm.countP (· = false)

/-- Modelled from the spec: `try_new` validates that the buffers match the
count and minimum sizes required by the type tag and length: fixed-width
needs one values buffer of at least `(length + offset) * size_of(T)`
bytes; variable-width needs an offsets buffer with `length + 1` entries
(4 bytes each), non-decreasing offsets, and a final offset not exceeding
the data buffer length. -/
def try_new (dt : DataType) (length : Nat) (nulls : Option ValidityBitmap)
    (off : Nat) (bufs : List Buffer) (childData : List ArrayData) :
    Except LayoutError ArrayData :=
  match dt with
  | .uint8 | .int32 =>
      if bufs.length ≠ 1 then
        .error .wrongBufferCount
      else if (bufs.headD []).length < (length + off) * dt.byteWidth then
        .error .bufferTooSmall
      else
        .ok (.mk dt length (countUnset nulls) nulls off bufs childData)
  | .utf8 =>
      if bufs.length ≠ 2 then
        .error .wrongBufferCount
      else
        let offBuf := bufs.headD []
        let dataBuf := (bufs.drop 1).headD []
        if offBuf.length < (length + off + 1) * 4 then
          .error .bufferTooSmall
        else
          let offs := (List.range (length + off + 1)).map fun i =>
            fromLE4 ((offBuf.drop (i * 4)).take 4)
          if ¬ List.Chain' (· ≤ ·) offs then
            .error .nonMonotonicOffsets
          else if dataBuf.length < offs.getLastD 0 then
            .error .offsetOutOfRange
          else
            .ok (.mk dt length (countUnset nulls) nulls off bufs childData)

end ArrayData

/-- Modelled from the spec: viewing a FixedWidthArray as ArrayData
(`array.data()`): one values buffer, the bitmap carried over, offset 0. -/
def FixedWidthArray.data (a : FixedWidthArray) : ArrayData :=
  .mk a.dtype a.length (ArrayData.countUnset a.nulls) a.nulls 0 [a.values] []

/-- Modelled from the spec: reconstructing a typed fixed-width array from an
ArrayData (`UInt8Array::from(array_data)`). -/
def FixedWidthArray.from_data (d : ArrayData) : FixedWidthArray :=
  ⟨d.dtype, d.buffers.headD [], d.null_bitmap, d.len⟩

/-- Modelled from the spec: viewing a VariableWidthArray as ArrayData
(the source's `array.data()`; named `to_data` here because `data` is the
byte-content field): the offsets buffer (4-byte little-endian entries)
then the data buffer. -/
def VariableWidthArray.to_data (a : VariableWidthArray) : ArrayData :=
  .mk .utf8 a.length (ArrayData.countUnset a.nulls) a.nulls 0
    [a.offsets.flatMap toLE4, a.data] []

/-- Modelled from the spec: reconstructing a typed variable-width array from
an ArrayData (`StringArray::from(array_data)`). -/
def VariableWidthArray.from_data (d : ArrayData) : VariableWidthArray :=
  ⟨(List.range (d.len + 1)).map
      (fun i => fromLE4 (((d.buffers.headD []).drop (i * 4)).take 4)),
    (d.buffers.drop 1).headD [], d.null_bitmap, d.len⟩

/-- One append operation of the FixedWidthBuilder interface. -/
inductive FixedOp where
  | value (v : Int)
  | null
  | slice (vs : List Int)
  | opt (o : Option Int)
  deriving DecidableEq, Repr

/-- Whether a FixedWidthBuilder operation never appends a null
(`append_value`, `append_slice`, or `append_option(Some)`). -/
def FixedOp.nonNull : FixedOp → Bool
  | .value _ => true
  | .null => false
  | .slice _ => true
  | .opt (some _) => true
  | .opt none => false

namespace FixedWidthBuilder

/-- Run one append operation on a FixedWidthBuilder. -/
def applyOp (b : FixedWidthBuilder) : FixedOp → FixedWidthBuilder
  | .value v => b.append_value v
  | .null => b.append_null
  | .slice vs => b.append_slice vs
  | .opt o => b.append_option o

/-- Run a sequence of append operations in order. -/
def applyOps (b : FixedWidthBuilder) (ops : List FixedOp) : FixedWidthBuilder :=
  ops.foldl applyOp b

/-- A builder whose ValidityBitmap is materialized from the start (used to
state that results do not depend on when the bitmap was materialized). -/
def new_eager (dt : DataType) : FixedWidthBuilder :=
  ⟨dt, [], some [], 0⟩

/-- The validity bits a builder state represents: its bitmap when
materialized, else all-valid. -/
def effValidity (b : FixedWidthBuilder) : List Bool :=
  b.nulls.getD (List.replicate b.length true)

end FixedWidthBuilder

/-- One append operation of the VariableWidthBuilder interface. -/
inductive StrOp where
  | value (s : List Nat)
  | null
  | opt (o : Option (List Nat))
  deriving DecidableEq, Repr

namespace VariableWidthBuilder

/-- Run one append operation on a VariableWidthBuilder. -/
def applyOp (b : VariableWidthBuilder) : StrOp → VariableWidthBuilder
  | .value s => b.append_value s
  | .null => b.append_null
  | .opt o => b.append_option o

/-- Run a sequence of append operations in order. -/
def applyOps (b : VariableWidthBuilder) (ops : List StrOp) : VariableWidthBuilder :=
  ops.foldl applyOp b

end VariableWidthBuilder

/-- Well-formedness of a VariableWidthArray as laid out physically: the
offsets buffer has `length + 1` entries and every offset fits in its
4-byte slot. -/
def VariableWidthArray.wf (a : VariableWidthArray) : Prop :=
  a.offsets.length = a.length + 1 ∧ ∀ o ∈ a.offsets, o < 2 ^ 32

instance (a : VariableWidthArray) : Decidable a.wf := by
  unfold VariableWidthArray.wf; infer_instance

/-- Observable equality of fixed-width arrays: same length, same null
positions, same values at every non-null position. -/
def FixedWidthArray.obsEq (a b : FixedWidthArray) : Prop :=
  a.length = b.length ∧
  (∀ i, i < a.length → a.isNull i = b.isNull i) ∧
  (∀ i, i < a.length → a.isNull i = false → a.valueAt i = b.valueAt i)

/-- Observable equality of variable-width arrays: same length, same null
positions, same bytes at every non-null position. -/
def VariableWidthArray.obsEq (a b : VariableWidthArray) : Prop :=
  a.length = b.length ∧
  (∀ i, i < a.length → a.isNull i = b.isNull i) ∧
  (∀ i, i < a.length → a.isNull i = false → a.elemBytes i = b.elemBytes i)

/-!
Embeddings of the cookbook's own functions, following
src/create_arrays.rs and src/low_level_api.rs line by line.
-/

namespace Cookbook

open FixedWidthBuilder VariableWidthBuilder

/-- src/create_arrays.rs: `Int32Array::from(vec![1, 2, 3])`. -/
def create_array_with_constructor : FixedWidthArray :=
  FixedWidthArray.from_vec .int32 [1, 2, 3]

/-- src/create_arrays.rs: `Int32Array::from(vec![Some(1), None, Some(3)])`. -/
def create_array_with_constructor_and_nulls : FixedWidthArray :=
  FixedWidthArray.from_opt_vec .int32 [some 1, none, some 3]

/-- src/create_arrays.rs: `Int32Builder::new()` followed by
`append_value(1)`, `append_null()`, `append_value(3)`,
`append_slice(&(4..6))`, `append_option(None)`, `append_option(Some(8))`,
`finish()`. -/
def create_array_with_default_builder : FixedWidthArray :=
  ((((((FixedWidthBuilder.new .int32).append_value 1).append_null).append_value 3).append_slice
      [4, 5]).append_option none).append_option (some 8) |>.finish

/-- src/create_arrays.rs: `Int32Builder::with_capacity(2)`, `append_value(1)`,
`append_null()`, `finish()`. -/
def create_array_with_builder_and_capacity : FixedWidthArray :=
  (((FixedWidthBuilder.with_capacity .int32 2).append_value 1).append_null).finish

/-- src/create_arrays.rs: `vec![1, 2, 3].into_iter().collect::<Int32Array>()`. -/
def create_array_with_collect : FixedWidthArray :=
  FixedWidthArray.collect .int32 [1, 2, 3]

/-- src/create_arrays.rs: `StringBuilder::with_capacity(4, 32)`,
`append_value("foo")`, `append_value("bar")`, `append_null()`,
`append_option(Some("foobar"))`, `finish()`. -/
def create_string_array_with_builder : VariableWidthArray :=
  ((((VariableWidthBuilder.with_capacity 4 32).append_value
      (strBytes ("foo"))).append_value (strBytes ("bar"))).append_null).append_option
    (some (strBytes ("foobar"))) |>.finish

/-- src/create_arrays.rs: `vec!["foo", "bar", "foobar"].into_iter().map(Some)
.collect::<StringArray>()`. -/
def create_string_array_with_collect : VariableWidthArray :=
  (([strBytes ("foo"), strBytes ("bar"), strBytes ("foobar")].map some).foldl
      VariableWidthBuilder.append_option VariableWidthBuilder.new).finish

/-- src/low_level_api.rs (`introspect_int_array`): the array it inspects,
`UInt8Array::from(vec![1, 2, 3])`. -/
def introspect_int_array_subject : FixedWidthArray :=
  FixedWidthArray.from_vec .uint8 [1, 2, 3]

/-- src/low_level_api.rs (`introspect_int_array_capacity`): the array it
inspects, `UInt8Builder::with_capacity(128)` with `1`, `2`, `3` appended. -/
def introspect_int_array_capacity_subject : FixedWidthArray :=
  ((((FixedWidthBuilder.with_capacity .uint8 128).append_value 1).append_value 2).append_value
    3).finish

/-- src/low_level_api.rs (`introspect_int_array_with_nulls`): the array it
inspects, `UInt8Builder::new()` with `1`, null, `3` appended. -/
def introspect_int_array_with_nulls_subject : FixedWidthArray :=
  ((((FixedWidthBuilder.new .uint8).append_value 1).append_null).append_value 3).finish

/-- src/low_level_api.rs (`introspect_string_array`): the array it inspects,
`StringArray::from(vec!["this", "is", "an", "array"])`. -/
def introspect_string_array_subject : VariableWidthArray :=
  VariableWidthArray.from_vec
    [strBytes ("this"), strBytes ("is"), strBytes ("an"), strBytes ("array")]

/-- src/low_level_api.rs: `create_int_array_from_buffer`:
`ArrayData::try_new(DataType::UInt8, 3, None, 0, vec![Buffer::from([1,2,3])],
vec![])` followed by `UInt8Array::from(array_data)` (before the `unwrap`,
the fallible result is an `Except`). -/
def create_int_array_from_buffer : Except LayoutError FixedWidthArray :=
  (ArrayData.try_new .uint8 3 none 0 [[1, 2, 3]] []).map FixedWidthArray.from_data

end Cookbook

/-- The structural invariant a VariableWidthBuilder state maintains: the
offsets buffer has `length + 1` entries, starts at 0, is non-decreasing,
and ends at the data buffer's length. -/
def VariableWidthBuilder.inv (b : VariableWidthBuilder) : Prop :=
  b.offsets.length = b.length + 1 ∧
  b.offsets.head? = some 0 ∧
  List.Chain' (· ≤ ·) b.offsets ∧
  b.offsets.getLast? = some b.data.length

/-- Modelled from the spec (scenario A): `FixedWidthBuilder<i32>` with
capacity 8, appending `1`, null, `3`, slice `[4, 5]`, `None`, `Some(8)`. -/
def scenarioA : FixedWidthArray :=
  ((((((FixedWidthBuilder.with_capacity .int32 8).append_value 1).append_null).append_value
      3).append_slice [4, 5]).append_option none).append_option (some 8) |>.finish

end ArrowSpec

namespace ArrowSpec

theorem fromLE4_toLE4 (n : Nat) (h : n < 2 ^ 32) : fromLE4 (toLE4 n) = n := by
  simp only [toLE4, fromLE4]
  omega

theorem toLE4_length (n : Nat) : (toLE4 n).length = 4 := rfl

theorem flatMap_toLE4_chunk (os : List Nat) (i : Nat) (h : i < os.length) :
    ((os.flatMap toLE4).drop (i * 4)).take 4 = toLE4 os[i] := by
  induction os generalizing i with
  | nil => simp at h
  | cons o os ih =>
    cases i with
    | zero =>
      simp only [List.flatMap_cons, Nat.zero_mul, List.drop_zero, List.getElem_cons_zero]
      exact List.take_left' (toLE4_length o)
    | succ i =>
      have h' : i < os.length := by simpa using h
      have hd : (toLE4 o ++ os.flatMap toLE4).drop ((i + 1) * 4)
          = (os.flatMap toLE4).drop (i * 4) := by
        rw [show (i + 1) * 4 = 4 + i * 4 by ring, ← List.drop_drop,
          List.drop_left' (toLE4_length o)]
      simp only [List.flatMap_cons, hd, List.getElem_cons_succ]
      exact ih i h'

/-- Appending plain values through the builder leaves the bitmap
unmaterialized and appends the encoded bytes in order. -/
theorem foldl_append_value (vs : List Int) (b : FixedWidthBuilder)
    (h : b.nulls = none) :
    vs.foldl FixedWidthBuilder.append_value b =
      ⟨b.dtype, b.values ++ vs.flatMap (encodeElem b.dtype), none, b.length + vs.length⟩ := by
  induction vs generalizing b with
  | nil =>
    obtain ⟨dt, val, nu, len⟩ := b
    simp only [FixedWidthBuilder.mk.injEq] at h ⊢
    simp [h]
  | cons v vs ih =>
    have hv : (b.append_value v).nulls = none := by
      simp [FixedWidthBuilder.append_value, h]
    rw [List.foldl_cons, ih (b.append_value v) hv]
    simp [FixedWidthBuilder.append_value, FixedWidthArray.mk.injEq, List.append_assoc]
    omega

theorem encode_uint8_of_lt (v : Nat) (h : v < 256) :
    encodeElem .uint8 (v : Int) = [v] := by
  simp only [encodeElem, List.cons.injEq, and_true]
  omega

theorem flatMap_encode_uint8 (vs : List Nat) (h : ∀ v ∈ vs, v < 256) :
    (vs.map Int.ofNat).flatMap (encodeElem .uint8) = vs := by
  induction vs with
  | nil => rfl
  | cons v vs ih =>
    rw [List.map_cons, List.flatMap_cons, Int.ofNat_eq_natCast,
      encode_uint8_of_lt v (h v (List.mem_cons_self v vs)),
      ih fun x hx => h x (List.mem_cons_of_mem v hx)]
    rfl

/-- C3. Scenario A: the i32 builder with capacity 8, after appending `1`,
null, `3`, the slice `[4, 5]`, `None` and `Some(8)`, finishes into the
array `[1, null, 3, 4, 5, null, 8]` of length 7 with validity bitmap
`[1, 0, 1, 1, 1, 0, 1]` — and this is exactly the array the cookbook's
`create_array_with_default_builder` builds. -/
theorem claim_C3_scenario_a :
    scenarioA.length = 7 ∧
    scenarioA.toObsList = [some 1, none, some 3, some 4, some 5, none, some 8] ∧
    scenarioA.validityList = [true, false, true, true, true, false, true] ∧
    scenarioA.nulls = some [true, false, true, true, true, false, true] ∧
    scenarioA = Cookbook.create_array_with_default_builder := by
  refine ⟨rfl, by decide, by decide, by decide, rfl⟩

/-- C4. Scenario B: the string builder with capacity (4 items, 32 bytes),
after appending "foo", "bar", a null and "foobar", finishes into an array
of length 4 with offsets `[0, 3, 6, 6, 12]`, data bytes "foobarfoobar"
and validity bitmap `[1, 1, 0, 1]`. -/
theorem claim_C4_scenario_b :
    Cookbook.create_string_array_with_builder.length = 4 ∧
    Cookbook.create_string_array_with_builder.offsets = [0, 3, 6, 6, 12] ∧
    Cookbook.create_string_array_with_builder.data = strBytes ("foobarfoobar") ∧
    Cookbook.create_string_array_with_builder.nulls = some [true, true, false, true] := by
  refine ⟨rfl, by decide, by decide, by decide⟩

/-- C8. Scenario C: `ArrayData::try_new(UInt8, 3, None, 0,
[Buffer::from([1,2,3])], [])` succeeds, and the resulting ArrayData viewed
as a typed array is `[1, 2, 3]` with no nulls (null count 0, no null
buffer). -/
theorem claim_C8_scenario_c :
    ArrayData.try_new .uint8 3 none 0 [[1, 2, 3]] [] =
      .ok (.mk .uint8 3 0 none 0 [[1, 2, 3]] []) ∧
    Cookbook.create_int_array_from_buffer =
      .ok (FixedWidthArray.from_vec .uint8 [1, 2, 3]) ∧
    (FixedWidthArray.from_vec .uint8 [1, 2, 3]).toObsList =
      [some 1, some 2, some 3] ∧
    (ArrayData.mk .uint8 3 0 none 0 [[1, 2, 3]] []).null_count = 0 ∧
    (ArrayData.mk .uint8 3 0 none 0 [[1, 2, 3]] []).null_buffer = none := by
  refine ⟨rfl, rfl, by decide, rfl, rfl⟩

/-- Every operation that appends no null keeps the validity bitmap
unmaterialized. -/
theorem applyOps_nonNull_nulls (ops : List FixedOp) (b : FixedWidthBuilder)
    (hb : b.nulls = none) (h : ∀ op ∈ ops, op.nonNull = true) :
    (FixedWidthBuilder.applyOps b ops).nulls = none := by
  induction ops generalizing b with
  | nil => exact hb
  | cons op ops ih =>
    have hop := h op (List.mem_cons_self op ops)
    refine ih (b.applyOp op) ?_ fun o ho => h o (List.mem_cons_of_mem op ho)
    cases op with
    | value v => simp [FixedWidthBuilder.applyOp, FixedWidthBuilder.append_value, hb]
    | null => simp [FixedOp.nonNull] at hop
    | slice vs =>
      show (b.append_slice vs).nulls = none
      unfold FixedWidthBuilder.append_slice
      rw [foldl_append_value vs b hb]
    | opt o =>
      cases o with
      | some v =>
        simp [FixedWidthBuilder.applyOp, FixedWidthBuilder.append_option,
          FixedWidthBuilder.append_value, hb]
      | none => simp [FixedOp.nonNull] at hop

/-- C2. Path equivalence: for any logical content of byte values, the typed
constructor path and the raw-buffer `ArrayData::try_new` path produce
bit-identical layouts (same values buffer bytes, length, and absent null
bitmap); in particular the cookbook's `create_int_array_from_buffer`
yields exactly `UInt8Array::from(vec![1, 2, 3])`. -/
theorem claim_C2_path_equivalence :
    (∀ vs : List Nat, (∀ v ∈ vs, v < 256) →
      ArrayData.try_new .uint8 vs.length none 0 [vs] [] =
        .ok (.mk .uint8 vs.length 0 none 0 [vs] []) ∧
      FixedWidthArray.from_data (.mk .uint8 vs.length 0 none 0 [vs] []) =
        FixedWidthArray.from_vec .uint8 (vs.map Int.ofNat)) ∧
    Cookbook.create_int_array_from_buffer =
      .ok (FixedWidthArray.from_vec .uint8 (([1, 2, 3] : List Nat).map Int.ofNat)) := by
  refine ⟨fun vs h => ⟨?_, ?_⟩, rfl⟩
  · simp [ArrayData.try_new, DataType.byteWidth, ArrayData.countUnset]
  · simp [FixedWidthArray.from_data, FixedWidthArray.from_vec, ArrayData.buffers,
      ArrayData.null_bitmap, ArrayData.len, ArrayData.dtype, flatMap_encode_uint8 vs h]

/-- Witness for C2 at the concrete input `[1, 2, 3]`. -/
theorem claim_C2_witness :
    ArrayData.try_new .uint8 ([1, 2, 3] : List Nat).length none 0 [[1, 2, 3]] [] =
      .ok (.mk .uint8 ([1, 2, 3] : List Nat).length 0 none 0 [[1, 2, 3]] []) ∧
    FixedWidthArray.from_data (.mk .uint8 ([1, 2, 3] : List Nat).length 0 none 0
        [[1, 2, 3]] []) =
      FixedWidthArray.from_vec .uint8 (([1, 2, 3] : List Nat).map Int.ofNat) :=
  claim_C2_path_equivalence.1 [1, 2, 3] (by decide)

/-- C6. No-null optimization: a FixedWidthArray built purely with
`append_value`, `append_slice` and `append_option(Some)` (no `append_null`,
no `append_option(None)`) has `nulls == None`: no validity bitmap is
allocated at all. -/
theorem claim_C6_no_null_optimization :
    ∀ (dt : DataType) (ops : List FixedOp), (∀ op ∈ ops, op.nonNull = true) →
      ((FixedWidthBuilder.applyOps (FixedWidthBuilder.new dt) ops).finish).nulls = none := by
  intro dt ops h
  exact applyOps_nonNull_nulls ops _ rfl h

/-- Witness for C6 on a concrete null-free append sequence. -/
theorem claim_C6_witness :
    (∀ op ∈ ([.value 1, .slice [2, 3], .opt (some 4)] : List FixedOp), op.nonNull = true) ∧
    ((FixedWidthBuilder.applyOps (FixedWidthBuilder.new .int32)
        [.value 1, .slice [2, 3], .opt (some 4)]).finish).nulls = none :=
  ⟨by decide, claim_C6_no_null_optimization .int32 _ (by decide)⟩

/-- C10. Constructor path and iterator-collect path agree: for every vector
of i32 values the two produce the same array (bit-identical, hence same
length and values) with no validity bitmap; in particular both yield
`[1, 2, 3]` for the input `vec![1, 2, 3]`. -/
theorem claim_C10_collect_eq_constructor :
    (∀ vs : List Int,
      FixedWidthArray.collect .int32 vs = FixedWidthArray.from_vec .int32 vs ∧
      (FixedWidthArray.collect .int32 vs).nulls = none) ∧
    Cookbook.create_array_with_collect = Cookbook.create_array_with_constructor ∧
    Cookbook.create_array_with_constructor.toObsList = [some 1, some 2, some 3] := by
  have key : ∀ vs : List Int,
      FixedWidthArray.collect .int32 vs = FixedWidthArray.from_vec .int32 vs := by
    intro vs
    unfold FixedWidthArray.collect FixedWidthArray.from_vec FixedWidthBuilder.finish
      FixedWidthBuilder.new
    rw [foldl_append_value vs ⟨.int32, [], none, 0⟩ rfl]
    simp
  exact ⟨fun vs => ⟨key vs, by rw [key vs]; rfl⟩, key [1, 2, 3], by decide⟩

theorem effValidity_append_value (b : FixedWidthBuilder) (v : Int) :
    (b.append_value v).effValidity = b.effValidity ++ [true] := by
  cases hb : b.nulls with
  | none =>
    simp [FixedWidthBuilder.append_value, FixedWidthBuilder.effValidity, hb,
      List.replicate_succ']
  | some bm =>
    simp [FixedWidthBuilder.append_value, FixedWidthBuilder.effValidity, hb]

theorem effValidity_append_null (b : FixedWidthBuilder) :
    (b.append_null).effValidity = b.effValidity ++ [false] := by
  cases hb : b.nulls <;>
    simp [FixedWidthBuilder.append_null, FixedWidthBuilder.effValidity, hb]

/-- Relation between a lazily-materializing builder state `L` and one whose
bitmap was materialized earlier (`E`): same content, and `E`'s bitmap holds
exactly the validity bits `L` represents. -/
theorem append_value_eager (L E : FixedWidthBuilder)
    (hd : E.dtype = L.dtype) (hv : E.values = L.values) (hl : E.length = L.length)
    (hn : E.nulls = some L.effValidity) (v : Int) :
    (E.append_value v).dtype = (L.append_value v).dtype ∧
    (E.append_value v).values = (L.append_value v).values ∧
    (E.append_value v).length = (L.append_value v).length ∧
    (E.append_value v).nulls = some (L.append_value v).effValidity := by
  refine ⟨hd, ?_, by simp [FixedWidthBuilder.append_value, hl], ?_⟩
  · simp [FixedWidthBuilder.append_value, hv, hd]
  · rw [effValidity_append_value]
    simp [FixedWidthBuilder.append_value, hn]

theorem append_slice_eager (vs : List Int) (L E : FixedWidthBuilder)
    (hd : E.dtype = L.dtype) (hv : E.values = L.values) (hl : E.length = L.length)
    (hn : E.nulls = some L.effValidity) :
    (E.append_slice vs).dtype = (L.append_slice vs).dtype ∧
    (E.append_slice vs).values = (L.append_slice vs).values ∧
    (E.append_slice vs).length = (L.append_slice vs).length ∧
    (E.append_slice vs).nulls = some (L.append_slice vs).effValidity := by
  induction vs generalizing L E with
  | nil => exact ⟨hd, hv, hl, hn⟩
  | cons v vs ih =>
    have step := append_value_eager L E hd hv hl hn v
    exact ih (L.append_value v) (E.append_value v) step.1 step.2.1 step.2.2.1 step.2.2.2

theorem applyOp_eager (op : FixedOp) (L E : FixedWidthBuilder)
    (hd : E.dtype = L.dtype) (hv : E.values = L.values) (hl : E.length = L.length)
    (hn : E.nulls = some L.effValidity) :
    (E.applyOp op).dtype = (L.applyOp op).dtype ∧
    (E.applyOp op).values = (L.applyOp op).values ∧
    (E.applyOp op).length = (L.applyOp op).length ∧
    (E.applyOp op).nulls = some (L.applyOp op).effValidity := by
  cases op with
  | value v => exact append_value_eager L E hd hv hl hn v
  | null =>
    refine ⟨hd, ?_, by simp [FixedWidthBuilder.applyOp, FixedWidthBuilder.append_null, hl], ?_⟩
    · simp [FixedWidthBuilder.applyOp, FixedWidthBuilder.append_null, hv, hd]
    · show (E.append_null).nulls = some (L.append_null).effValidity
      rw [effValidity_append_null]
      simp [FixedWidthBuilder.append_null, hn, FixedWidthBuilder.effValidity]
  | slice vs => exact append_slice_eager vs L E hd hv hl hn
  | opt o =>
    cases o with
    | some v => exact append_value_eager L E hd hv hl hn v
    | none =>
      refine ⟨hd, ?_, by simp [FixedWidthBuilder.applyOp, FixedWidthBuilder.append_option,
        FixedWidthBuilder.append_null, hl], ?_⟩
      · simp [FixedWidthBuilder.applyOp, FixedWidthBuilder.append_option,
          FixedWidthBuilder.append_null, hv, hd]
      · show (E.append_null).nulls = some (L.append_null).effValidity
        rw [effValidity_append_null]
        simp [FixedWidthBuilder.append_null, hn, FixedWidthBuilder.effValidity]

theorem applyOps_eager (ops : List FixedOp) (L E : FixedWidthBuilder)
    (hd : E.dtype = L.dtype) (hv : E.values = L.values) (hl : E.length = L.length)
    (hn : E.nulls = some L.effValidity) :
    (FixedWidthBuilder.applyOps E ops).dtype = (FixedWidthBuilder.applyOps L ops).dtype ∧
    (FixedWidthBuilder.applyOps E ops).values = (FixedWidthBuilder.applyOps L ops).values ∧
    (FixedWidthBuilder.applyOps E ops).length = (FixedWidthBuilder.applyOps L ops).length ∧
    (FixedWidthBuilder.applyOps E ops).nulls =
      some (FixedWidthBuilder.applyOps L ops).effValidity := by
  induction ops generalizing L E with
  | nil => exact ⟨hd, hv, hl, hn⟩
  | cons op ops ih =>
    have step := applyOp_eager op L E hd hv hl hn
    exact ih (L.applyOp op) (E.applyOp op) step.1 step.2.1 step.2.2.1 step.2.2.2

/-- C5. Lazy bitmap backfill: the sequence `append_value(1)`,
`append_value(2)`, `append_null()`, `append_value(3)` yields an array of
length 4 with validity `[true, true, false, true]`; and for every append
sequence, the lazily-materializing builder and a builder whose bitmap was
materialized from the start finish into observably equal arrays, so the
result does not depend on when the bitmap was materialized. -/
theorem claim_C5_lazy_backfill :
    (((((FixedWidthBuilder.new .int32).append_value 1).append_value 2).append_null).append_value
        3).finish.length = 4 ∧
    (((((FixedWidthBuilder.new .int32).append_value 1).append_value 2).append_null).append_value
        3).finish.validityList = [true, true, false, true] ∧
    ∀ (dt : DataType) (ops : List FixedOp),
      ((FixedWidthBuilder.applyOps (FixedWidthBuilder.new dt) ops).finish).obsEq
        ((FixedWidthBuilder.applyOps (FixedWidthBuilder.new_eager dt) ops).finish) := by
  refine ⟨rfl, by decide, fun dt ops => ?_⟩
  have st := applyOps_eager ops (FixedWidthBuilder.new dt) (FixedWidthBuilder.new_eager dt)
    rfl rfl rfl rfl
  set L := FixedWidthBuilder.applyOps (FixedWidthBuilder.new dt) ops with hL
  set E := FixedWidthBuilder.applyOps (FixedWidthBuilder.new_eager dt) ops with hE
  obtain ⟨hd, hv, hl, hn⟩ := st
  refine ⟨hl.symm, fun i hi => ?_, fun i hi _ => ?_⟩
  · show L.finish.isNull i = E.finish.isNull i
    unfold FixedWidthArray.isNull
    cases hLn : L.nulls with
    | none =>
      have : E.nulls = some (List.replicate L.length true) := by
        rw [hn]; unfold FixedWidthBuilder.effValidity; rw [hLn]; rfl
      show (match L.finish.nulls with
        | none => false
        | some bm => !(bm.getD i true)) = _
      have hfin : L.finish.nulls = none := hLn
      have hfinE : E.finish.nulls = some (List.replicate L.length true) := this
      rw [hfin, hfinE]
      have hi' : i < L.length := hi
      simp [List.getD_eq_getElem?_getD, List.getElem?_replicate_of_lt hi']
    | some bm =>
      have : E.nulls = some bm := by
        rw [hn]; unfold FixedWidthBuilder.effValidity; rw [hLn]; rfl
      have hfin : L.finish.nulls = some bm := hLn
      have hfinE : E.finish.nulls = some bm := this
      rw [hfin, hfinE]
  · show L.finish.valueAt i = E.finish.valueAt i
    unfold FixedWidthArray.valueAt
    have h1 : L.finish.values = E.finish.values := hv.symm
    have h2 : L.finish.dtype = E.finish.dtype := hd.symm
    rw [h1, h2]

/-- Witness for C5's general part on a concrete append sequence: the length
observation of the lazy and eager builds agree. -/
theorem claim_C5_witness :
    ((FixedWidthBuilder.applyOps (FixedWidthBuilder.new .int32)
        [.value 1, .null, .value 3]).finish).length =
      ((FixedWidthBuilder.applyOps (FixedWidthBuilder.new_eager .int32)
        [.value 1, .null, .value 3]).finish).length :=
  (claim_C5_lazy_backfill.2.2 .int32 [.value 1, .null, .value 3]).1

theorem inv_new : VariableWidthBuilder.new.inv :=
  ⟨rfl, rfl, List.chain'_singleton 0, rfl⟩

theorem inv_append_value (b : VariableWidthBuilder) (hb : b.inv) (s : List Nat) :
    (b.append_value s).inv := by
  obtain ⟨h1, h2, h3, h4⟩ := hb
  refine ⟨?_, ?_, ?_, ?_⟩
  · simp [VariableWidthBuilder.append_value, h1]
  · simp [VariableWidthBuilder.append_value, List.head?_append, h2]
  · show List.Chain' (· ≤ ·) (b.offsets ++ [b.data.length + s.length])
    rw [List.chain'_append]
    refine ⟨h3, List.chain'_singleton _, fun x hx y hy => ?_⟩
    rw [h4, Option.mem_def, Option.some.injEq] at hx
    simp only [List.head?_cons, Option.mem_def, Option.some.injEq] at hy
    omega
  · show (b.offsets ++ [b.data.length + s.length]).getLast? = some (b.data ++ s).length
    rw [List.getLast?_concat]
    simp

theorem inv_append_null (b : VariableWidthBuilder) (hb : b.inv) :
    (b.append_null).inv := by
  obtain ⟨h1, h2, h3, h4⟩ := hb
  refine ⟨?_, ?_, ?_, ?_⟩
  · simp [VariableWidthBuilder.append_null, h1]
  · simp [VariableWidthBuilder.append_null, List.head?_append, h2]
  · show List.Chain' (· ≤ ·) (b.offsets ++ [b.data.length])
    rw [List.chain'_append]
    refine ⟨h3, List.chain'_singleton _, fun x hx y hy => ?_⟩
    rw [h4, Option.mem_def, Option.some.injEq] at hx
    simp only [List.head?_cons, Option.mem_def, Option.some.injEq] at hy
    omega
  · exact List.getLast?_concat _

theorem inv_applyOp (b : VariableWidthBuilder) (hb : b.inv) (op : StrOp) :
    (b.applyOp op).inv := by
  cases op with
  | value s => exact inv_append_value b hb s
  | null => exact inv_append_null b hb
  | opt o =>
    cases o with
    | some s => exact inv_append_value b hb s
    | none => exact inv_append_null b hb

theorem inv_applyOps (ops : List StrOp) (b : VariableWidthBuilder) (hb : b.inv) :
    (VariableWidthBuilder.applyOps b ops).inv := by
  induction ops generalizing b with
  | nil => exact hb
  | cons op ops ih => exact ih (b.applyOp op) (inv_applyOp b hb op)

/-- C7. Offsets invariant: every VariableWidthArray produced by the builder
has an offsets buffer of exactly `length + 1` entries that starts at 0, is
non-decreasing and ends at the data buffer's length, and element `i`'s
bytes are `data[offsets[i]..offsets[i+1]]`. -/
theorem claim_C7_offsets_invariant :
    ∀ (ops : List StrOp) (A : VariableWidthArray),
      A = (VariableWidthBuilder.applyOps VariableWidthBuilder.new ops).finish →
      A.offsets.length = A.length + 1 ∧
      A.offsets.head? = some 0 ∧
      List.Chain' (· ≤ ·) A.offsets ∧
      A.offsets.getLast? = some A.data.length ∧
      ∀ i, i < A.length →
        A.elemBytes i = (A.data.take (A.offsets.getD (i + 1) 0)).drop (A.offsets.getD i 0) := by
  intro ops A hA
  subst hA
  obtain ⟨h1, h2, h3, h4⟩ := inv_applyOps ops VariableWidthBuilder.new inv_new
  exact ⟨h1, h2, h3, h4, fun i _ => rfl⟩

/-- Witness for C7 on a concrete append sequence. -/
theorem claim_C7_witness :
    ((VariableWidthBuilder.applyOps VariableWidthBuilder.new
        [.value (strBytes ("ab")), .null]).finish).offsets.head? = some 0 ∧
    ((VariableWidthBuilder.applyOps VariableWidthBuilder.new
        [.value (strBytes ("ab")), .null]).finish).elemBytes 0 =
      (((VariableWidthBuilder.applyOps VariableWidthBuilder.new
          [.value (strBytes ("ab")), .null]).finish).data.take
        (((VariableWidthBuilder.applyOps VariableWidthBuilder.new
          [.value (strBytes ("ab")), .null]).finish).offsets.getD 1 0)).drop
        (((VariableWidthBuilder.applyOps VariableWidthBuilder.new
          [.value (strBytes ("ab")), .null]).finish).offsets.getD 0 0) :=
  ⟨(claim_C7_offsets_invariant [.value (strBytes ("ab")), .null] _ rfl).2.1,
    (claim_C7_offsets_invariant [.value (strBytes ("ab")), .null] _ rfl).2.2.2.2 0 (by decide)⟩

/-- Reconstructing a fixed-width array from its ArrayData view restores it
field by field. -/
theorem from_data_data (a : FixedWidthArray) : FixedWidthArray.from_data a.data = a := by
  cases a
  rfl

/-- Reconstructing a variable-width array from its ArrayData view restores
it field by field, provided its offsets fit their physical 4-byte slots. -/
theorem from_data_to_data (a : VariableWidthArray) (h : a.wf) :
    VariableWidthArray.from_data a.to_data = a := by
  obtain ⟨hlen, hbound⟩ := h
  obtain ⟨offs, dat, nu, len⟩ := a
  simp only [VariableWidthArray.length] at hlen
  simp only [VariableWidthArray.offsets] at hbound
  show VariableWidthArray.mk _ _ _ _ = _
  simp only [VariableWidthArray.from_data, VariableWidthArray.to_data, ArrayData.buffers,
    ArrayData.len, ArrayData.null_bitmap, List.headD, List.drop, VariableWidthArray.mk.injEq]
  refine ⟨?_, trivial, trivial, trivial⟩
  apply List.ext_getElem
  · simp [hlen]
  · intro i h₁ h₂
    simp only [List.getElem_map, List.getElem_range]
    rw [flatMap_toLE4_chunk offs i h₂, fromLE4_toLE4]
    exact hbound _ (List.getElem_mem h₂)

/-- C1. Round-trip law: viewing a FixedWidthArray or a (well-formed)
VariableWidthArray as ArrayData and reconstructing a typed array from that
ArrayData yields an array observably equal to the original: same length,
same null positions, same values at every non-null position. -/
theorem claim_C1_roundtrip :
    (∀ a : FixedWidthArray, (FixedWidthArray.from_data a.data).obsEq a) ∧
    (∀ a : VariableWidthArray, a.wf →
      (VariableWidthArray.from_data a.to_data).obsEq a) := by
  constructor
  · intro a
    rw [from_data_data]
    exact ⟨rfl, fun _ _ => rfl, fun _ _ _ => rfl⟩
  · intro a h
    rw [from_data_to_data a h]
    exact ⟨rfl, fun _ _ => rfl, fun _ _ _ => rfl⟩

/-- Witness for C1 on the string array the cookbook introspects. -/
theorem claim_C1_witness :
    Cookbook.introspect_string_array_subject.wf ∧
    (VariableWidthArray.from_data Cookbook.introspect_string_array_subject.to_data).obsEq
      Cookbook.introspect_string_array_subject :=
  ⟨by decide, claim_C1_roundtrip.2 _ (by decide)⟩

/-- C9. Scenario D: the same construction with declared length 5 over the
3-byte buffer fails with `LayoutError::BufferTooSmall` — a returned,
recoverable error value, so the typed-array view is never produced and no
silent truncation happens. -/
theorem claim_C9_scenario_d :
    ArrayData.try_new .uint8 5 none 0 [[1, 2, 3]] [] = .error .bufferTooSmall ∧
    (ArrayData.try_new .uint8 5 none 0 [[1, 2, 3]] []).map FixedWidthArray.from_data =
      .error .bufferTooSmall := by
  exact ⟨rfl, rfl⟩

end ArrowSpec
